import Mathlib

/-!
Shallow embedding of the calculation core of the FBA profit calculator
(`src/lib/calculatorUtils.ts` and the input handler in
`src/components/FBACalculator.tsx`), together with theorems settling the
specification claims about it.

Numbers are modelled as exact rationals.  The one place where JavaScript
number semantics matters — division by zero in the break-even computation —
is modelled explicitly by the type `JSNum`, which adds the IEEE special
values Infinity, -Infinity and NaN on top of finite rationals, with the
JavaScript behaviour of `/`, `Math.abs` and `Math.ceil` on them.
-/

namespace FBA

/-- The `CalculationInputs` interface of `calculatorUtils.ts`: seven numeric
fields. -/
structure CalculationInputs where
  productCost : ℚ
  sellingPrice : ℚ
  referralFee : ℚ
  fbaFee : ℚ
  shippingCost : ℚ
  ppcBudget : ℚ
  otherFees : ℚ
deriving Repr, DecidableEq

/-- A JavaScript number as needed here: a finite (exact) value, one of the
two infinities, or NaN. -/
inductive JSNum where
  | Finite (q : ℚ)
  | PosInf
  | NegInf
  | NaN
deriving Repr, DecidableEq

/-- JavaScript division `a / b` on finite operands: finite quotient when the
divisor is nonzero, otherwise ±Infinity (by the sign of the dividend) or NaN
for `0 / 0`. -/
def jsDiv (a b : ℚ) : JSNum :=
  if b ≠ 0 then .Finite (a / b)
  else if 0 < a then .PosInf
  else if a < 0 then .NegInf
  else .NaN

/-- `Math.abs`: maps both infinities to Infinity and keeps NaN. -/
def jsAbs : JSNum → JSNum
  | .Finite q => .Finite |q|
  | .PosInf => .PosInf
  | .NegInf => .PosInf
  | .NaN => .NaN

/-- `Math.ceil`: ceiling on finite values, fixed on infinities and NaN. -/
def jsCeil : JSNum → JSNum
  | .Finite q => .Finite ⌈q⌉
  | .PosInf => .PosInf
  | .NegInf => .NegInf
  | .NaN => .NaN

/-- `Number.isFinite`. -/
def JSNum.isFinite : JSNum → Bool
  | .Finite _ => true
  | _ => false

/-- `Number.isNaN`. -/
def JSNum.isNaN : JSNum → Bool
  | .NaN => true
  | _ => false

/-- The JavaScript comparison `x >= 0`: false on NaN and on -Infinity. -/
def JSNum.nonneg : JSNum → Bool
  | .Finite q => decide (0 ≤ q)
  | .PosInf => true
  | .NegInf => false
  | .NaN => false

/-- The `CalculationResults` interface of `calculatorUtils.ts`.
`breakEvenUnits` is a `JSNum` because its computation can divide by zero. -/
structure CalculationResults where
  netProfit : ℚ
  profitMargin : ℚ
  breakEvenUnits : JSNum
  totalCosts : ℚ
deriving Repr, DecidableEq

/-- `calculateResults` of `calculatorUtils.ts`, line for line:
total costs are the sum of the six cost fields, net profit is selling price
minus total costs, profit margin is `netProfit / sellingPrice * 100` guarded
by `sellingPrice > 0`, and break-even units are
`Math.ceil(Math.abs(totalCosts / (sellingPrice - productCost)))` guarded only
by `netProfit !== 0`. -/
def calculateResults (inputs : CalculationInputs) : CalculationResults :=
  let totalCosts := inputs.productCost + inputs.referralFee + inputs.fbaFee +
                    inputs.shippingCost + inputs.ppcBudget + inputs.otherFees
  let netProfit := inputs.sellingPrice - totalCosts
  let profitMargin :=
    if 0 < inputs.sellingPrice then (netProfit / inputs.sellingPrice) * 100 else 0
  let breakEvenUnits :=
    if netProfit ≠ 0 then
      jsCeil (jsAbs (jsDiv totalCosts (inputs.sellingPrice - inputs.productCost)))
    else
      .Finite 0
  ⟨netProfit, profitMargin, breakEvenUnits, totalCosts⟩

/-- The example input record used by the spec in section 8. -/
def exampleInputs : CalculationInputs :=
  ⟨5, 20, 3, 4, 1, 1, 1⟩

/-- `validateInputs` of `calculatorUtils.ts`: pushes the selling-price message
when `sellingPrice <= 0`, then the product-cost message when
`productCost < 0`. -/
def validateInputs (inputs : CalculationInputs) : List String :=
  (if inputs.sellingPrice ≤ 0 then ["Selling price must be greater than 0"] else []) ++
  (if inputs.productCost < 0 then ["Product cost cannot be negative"] else [])

/-- The message surfaced by `validateInputsFunc` in `FBACalculator.tsx`: when
the error list is non-empty the caller toasts only `errors[0]`; otherwise no
message is shown. -/
def validateInputsFunc (inputs : CalculationInputs) : Option String :=
  let errors := validateInputs inputs
  if 0 < errors.length then errors[0]? else none

/-- JavaScript template rendering of a number.  Integral values render as
their decimal integer string, as in JavaScript; the decimal rendering of
non-integral finite values is abstracted by the exact rational
representation (no claim depends on it). -/
def jsNumToString : JSNum → String
  | .Finite q => if q.den = 1 then toString q.num else toString q
  | .PosInf => "Infinity"
  | .NegInf => "-Infinity"
  | .NaN => "NaN"

/-- JavaScript `(x).toFixed(0)`: the decimal string of the nearest integer,
ties resolved towards the larger integer. -/
def toFixed0 (q : ℚ) : String := toString ⌊q + 1 / 2⌋

/-- `getContextualAdvice` of `calculatorUtils.ts`: a rule table pushing fixed
messages by thresholds on `netProfit` and `profitMargin`, two interpolated
messages when `netProfit > 0` (one mentioning `breakEvenUnits`, one the
projected revenue), and a warning when `referralFee / sellingPrice * 100`
exceeds 20. -/
def getContextualAdvice (results : CalculationResults)
    (inputs : CalculationInputs) : List String :=
  let advice : List String := []
  let advice := if results.netProfit < 0 then
      advice ++ ["⚠️ Negative profit! Consider reducing costs or increasing selling price."]
    else advice
  let advice := if results.profitMargin < 15 then
      advice ++ ["⚠️ Low profit margin. Aim for at least 15% for sustainable business."]
    else if 30 ≤ results.profitMargin then
      advice ++ ["✅ Excellent profit margin! This is considered healthy for FBA sellers."]
    else if 20 ≤ results.profitMargin then
      advice ++ ["✅ Good profit margin. You\x27re on the right track."]
    else advice
  let advice := if 0 < results.netProfit then
      let monthlyRevenue := toFixed0 (results.netProfit * 100)
      advice ++
        ["💡 At this margin, you\x27d need to sell " ++ jsNumToString results.breakEvenUnits ++
           " units monthly to break even.",
         "📈 Selling 100 units monthly would net you $" ++ monthlyRevenue ++ "."]
    else advice
  let referralFeePercentage :=
    if 0 < inputs.sellingPrice then (inputs.referralFee / inputs.sellingPrice) * 100 else 0
  let advice := if 20 < referralFeePercentage then
      advice ++ ["⚠️ High referral fee percentage. Check if this is accurate for your category."]
    else advice
  advice

/-- The names of the seven input fields, used by `handleInputChange` in
`FBACalculator.tsx`. -/
inductive InputField where
  | productCost
  | sellingPrice
  | referralFee
  | fbaFee
  | shippingCost
  | ppcBudget
  | otherFees
deriving Repr, DecidableEq

/-- The record update `{ ...inputs, [field]: value }`. -/
def setInput (inputs : CalculationInputs) : InputField → ℚ → CalculationInputs
  | .productCost, v => { inputs with productCost := v }
  | .sellingPrice, v => { inputs with sellingPrice := v }
  | .referralFee, v => { inputs with referralFee := v }
  | .fbaFee, v => { inputs with fbaFee := v }
  | .shippingCost, v => { inputs with shippingCost := v }
  | .ppcBudget, v => { inputs with ppcBudget := v }
  | .otherFees, v => { inputs with otherFees := v }

/-- `handleInputChange` of `FBACalculator.tsx`.  The string argument is
abstracted by its parsed numeric value `parseFloat(value) || 0`.  Negative
values are rejected (state unchanged); otherwise the field is set, and when
the field is `sellingPrice` and the current `referralFee` is falsy (equal to
0 in this model) the referral fee is auto-set to `numericValue * 0.15`. -/
def handleInputChange (inputs : CalculationInputs) (field : InputField)
    (numericValue : ℚ) : CalculationInputs :=
  if numericValue < 0 then inputs
  else
    let newInputs := setInput inputs field numericValue
    if field = .sellingPrice ∧ inputs.referralFee = 0 then
      { newInputs with referralFee := numericValue * 0.15 }
    else newInputs

/-- `Object.entries(inputs)`: the seven key/value pairs in declaration
order. -/
def inputEntries (inputs : CalculationInputs) : List (String × ℚ) :=
  [("productCost", inputs.productCost), ("sellingPrice", inputs.sellingPrice),
   ("referralFee", inputs.referralFee), ("fbaFee", inputs.fbaFee),
   ("shippingCost", inputs.shippingCost), ("ppcBudget", inputs.ppcBudget),
   ("otherFees", inputs.otherFees)]

/-- The query parameters produced by `encodeStateToUrl`: one `key=value` pair
per field whose value is not 0, in `Object.entries` order.  The
number-to-string serialization `value.toString()` is abstracted by the exact
numeric value (JavaScript `toString` followed by `parseFloat` round-trips
every number exactly). -/
def encodeStateToUrl (inputs : CalculationInputs) : List (String × ℚ) :=
  (inputEntries inputs).filter (fun p => decide (p.2 ≠ 0))

/-- `URLSearchParams.get`: the first value stored under the key, if any. -/
def getParam : List (String × ℚ) → String → Option ℚ
  | [], _ => none
  | p :: rest, k => if p.1 = k then some p.2 else getParam rest k

/-- The `Partial<CalculationInputs>` record built by `decodeStateFromUrl`. -/
structure PartialInputs where
  productCost : Option ℚ
  sellingPrice : Option ℚ
  referralFee : Option ℚ
  fbaFee : Option ℚ
  shippingCost : Option ℚ
  ppcBudget : Option ℚ
  otherFees : Option ℚ
deriving Repr, DecidableEq

/-- The empty partial record `{}`. -/
def emptyPartial : PartialInputs := ⟨none, none, none, none, none, none, none⟩

/-- The assignment `inputs[key] = v`. -/
def setPartial (p : PartialInputs) (k : String) (v : ℚ) : PartialInputs :=
  if k = "productCost" then { p with productCost := some v }
  else if k = "sellingPrice" then { p with sellingPrice := some v }
  else if k = "referralFee" then { p with referralFee := some v }
  else if k = "fbaFee" then { p with fbaFee := some v }
  else if k = "shippingCost" then { p with shippingCost := some v }
  else if k = "ppcBudget" then { p with ppcBudget := some v }
  else if k = "otherFees" then { p with otherFees := some v }
  else p

/-- The `keys` array iterated by `decodeStateFromUrl`. -/
def fieldKeys : List String :=
  ["productCost", "sellingPrice", "referralFee", "fbaFee",
   "shippingCost", "ppcBudget", "otherFees"]

/-- `parseFloat(value) || 0` applied to the already-parsed numeric value:
a falsy parse result (0 here; NaN cannot arise from an encoded value) maps
to 0. -/
def jsOrZero (q : ℚ) : ℚ := if q = 0 then 0 else q

/-- One iteration of the `keys.forEach` loop of `decodeStateFromUrl`. -/
def decodeStep (params : List (String × ℚ)) (acc : PartialInputs)
    (key : String) : PartialInputs :=
  match getParam params key with
  | some v => setPartial acc key (jsOrZero v)
  | none => acc

/-- `decodeStateFromUrl` of `calculatorUtils.ts`, run against the given query
parameters: for each known key present in the parameters, store
`parseFloat(value) || 0` in the partial record. -/
def decodeStateFromUrl (params : List (String × ℚ)) : PartialInputs :=
  fieldKeys.foldl (decodeStep params) emptyPartial

/-- Field access on the inputs record by key name. -/
def getField (x : CalculationInputs) (k : String) : ℚ :=
  if k = "productCost" then x.productCost
  else if k = "sellingPrice" then x.sellingPrice
  else if k = "referralFee" then x.referralFee
  else if k = "fbaFee" then x.fbaFee
  else if k = "shippingCost" then x.shippingCost
  else if k = "ppcBudget" then x.ppcBudget
  else if k = "otherFees" then x.otherFees
  else 0

/-- Field access on the partial record by key name. -/
def getPartialField (p : PartialInputs) (k : String) : Option ℚ :=
  if k = "productCost" then p.productCost
  else if k = "sellingPrice" then p.sellingPrice
  else if k = "referralFee" then p.referralFee
  else if k = "fbaFee" then p.fbaFee
  else if k = "shippingCost" then p.shippingCost
  else if k = "ppcBudget" then p.ppcBudget
  else if k = "otherFees" then p.otherFees
  else none

end FBA

namespace FBA

/-- C1: for every input record, `totalCosts` of `calculateResults` equals the
sum of the six cost fields `productCost + referralFee + fbaFee + shippingCost
+ ppcBudget + otherFees`. -/
theorem totalCosts_eq_sum (i : CalculationInputs) :
    (calculateResults i).totalCosts =
      i.productCost + i.referralFee + i.fbaFee + i.shippingCost +
        i.ppcBudget + i.otherFees := rfl

/-- C2: for every input record, `netProfit` of `calculateResults` equals
`sellingPrice` minus the `totalCosts` field of the same result, exactly. -/
theorem netProfit_eq_price_sub_totalCosts (i : CalculationInputs) :
    (calculateResults i).netProfit = i.sellingPrice - (calculateResults i).totalCosts := rfl

/-- C3: for every input record with positive selling price, `profitMargin`
equals `netProfit / sellingPrice * 100`; for every input record with selling
price ≤ 0 (including 0) it equals 0. -/
theorem profitMargin_spec (i : CalculationInputs) :
    (0 < i.sellingPrice →
      (calculateResults i).profitMargin =
        (calculateResults i).netProfit / i.sellingPrice * 100) ∧
    (i.sellingPrice ≤ 0 → (calculateResults i).profitMargin = 0) := by
  constructor
  · intro h
    simp [calculateResults, h]
  · intro h
    have h' : ¬ 0 < i.sellingPrice := not_lt.mpr h
    simp [calculateResults, h']

/-- Witness for C3 at concrete inputs: selling price 20 gives margin 25,
selling price 0 gives margin 0. -/
theorem profitMargin_spec_witness :
    (calculateResults exampleInputs).profitMargin =
        (calculateResults exampleInputs).netProfit / exampleInputs.sellingPrice * 100 ∧
    (calculateResults ⟨1, 0, 0, 0, 0, 0, 0⟩).profitMargin = 0 :=
  ⟨(profitMargin_spec exampleInputs).1 (by norm_num [exampleInputs]),
   (profitMargin_spec ⟨1, 0, 0, 0, 0, 0, 0⟩).2 (by norm_num)⟩

/-- C4: for every input record, `breakEvenUnits` equals
`Math.ceil(Math.abs(totalCosts / (sellingPrice - productCost)))` (with
JavaScript division semantics) when `netProfit ≠ 0` and equals 0 when
`netProfit = 0`; and the spec example inputs
`{productCost 5, sellingPrice 20, referralFee 3, fbaFee 4, shippingCost 1,
ppcBudget 1, otherFees 1}` yield `totalCosts = 15`, `netProfit = 5`,
`profitMargin = 25` and `breakEvenUnits = 1`. -/
theorem breakEvenUnits_spec (i : CalculationInputs) :
    ((calculateResults i).netProfit ≠ 0 →
      (calculateResults i).breakEvenUnits =
        jsCeil (jsAbs (jsDiv (calculateResults i).totalCosts
          (i.sellingPrice - i.productCost)))) ∧
    ((calculateResults i).netProfit = 0 →
      (calculateResults i).breakEvenUnits = .Finite 0) ∧
    calculateResults exampleInputs = ⟨5, 25, .Finite 1, 15⟩ := by
  refine ⟨?_, ?_, ?_⟩
  · intro h
    simp only [calculateResults] at h ⊢
    rw [if_pos h]
  · intro h
    simp only [calculateResults] at h ⊢
    rw [if_neg (by simpa using h)]
  · norm_num [calculateResults, exampleInputs, jsDiv, jsAbs, jsCeil]

/-- Witness for C4 at the spec example: net profit 5 is nonzero and the
break-even formula evaluates to 1 there. -/
theorem breakEvenUnits_spec_witness :
    (calculateResults exampleInputs).netProfit ≠ 0 ∧
    (calculateResults exampleInputs).breakEvenUnits =
      jsCeil (jsAbs (jsDiv (calculateResults exampleInputs).totalCosts
        (exampleInputs.sellingPrice - exampleInputs.productCost))) :=
  ⟨by norm_num [calculateResults, exampleInputs],
   (breakEvenUnits_spec exampleInputs).1 (by norm_num [calculateResults, exampleInputs])⟩

/-- C6: `validateInputs` flags exactly the inputs with `sellingPrice ≤ 0` or
`productCost < 0`: the selling-price message is present (and first) whenever
`sellingPrice ≤ 0`, the negative-cost message is present whenever
`productCost < 0`, the list is empty whenever `sellingPrice > 0` and
`productCost ≥ 0`, the list is non-empty exactly on invalid inputs, and the
caller surfaces only the first message of the list. -/
theorem validateInputs_spec (i : CalculationInputs) :
    (i.sellingPrice ≤ 0 →
      "Selling price must be greater than 0" ∈ validateInputs i ∧
      (validateInputs i).head? = some "Selling price must be greater than 0") ∧
    (i.productCost < 0 → "Product cost cannot be negative" ∈ validateInputs i) ∧
    (0 < i.sellingPrice → 0 ≤ i.productCost → validateInputs i = []) ∧
    (validateInputs i ≠ [] ↔ (i.sellingPrice ≤ 0 ∨ i.productCost < 0)) ∧
    validateInputsFunc i = (validateInputs i).head? := by
  by_cases hs : i.sellingPrice ≤ 0 <;> by_cases hp : i.productCost < 0 <;>
    simp [validateInputs, validateInputsFunc, hs, hp, not_le.mp, le_of_not_lt]

/-- Witness for C6: at selling price 0 with product cost -1 both messages are
produced with the selling-price message first; at selling price 10 with
product cost 2 the list is empty. -/
theorem validateInputs_spec_witness :
    ((validateInputs ⟨-1, 0, 0, 0, 0, 0, 0⟩).head? =
        some "Selling price must be greater than 0" ∧
      "Product cost cannot be negative" ∈ validateInputs ⟨-1, 0, 0, 0, 0, 0, 0⟩) ∧
    validateInputs ⟨2, 10, 0, 0, 0, 0, 0⟩ = [] :=
  ⟨⟨((validateInputs_spec ⟨-1, 0, 0, 0, 0, 0, 0⟩).1 (by norm_num)).2,
    (validateInputs_spec ⟨-1, 0, 0, 0, 0, 0, 0⟩).2.1 (by norm_num)⟩,
   (validateInputs_spec ⟨2, 10, 0, 0, 0, 0, 0⟩).2.2.1 (by norm_num) (by norm_num)⟩

/-- Dividing by zero and then applying `Math.abs` and `Math.ceil` never
produces a finite value. -/
theorem jsDiv_zero_not_finite (a : ℚ) :
    (jsCeil (jsAbs (jsDiv a 0))).isFinite = false := by
  unfold jsDiv
  split_ifs <;> simp_all [jsAbs, jsCeil, JSNum.isFinite]

/-- A finite division is NaN exactly for `0 / 0`. -/
theorem jsDiv_isNaN_iff (a b : ℚ) : (jsDiv a b).isNaN = true ↔ b = 0 ∧ a = 0 := by
  unfold jsDiv
  split_ifs with h1 h2 h3
  · simp only [JSNum.isNaN, Bool.false_eq_true, false_iff]
    exact fun h => h1 h.1
  · simp only [JSNum.isNaN, Bool.false_eq_true, false_iff]
    exact fun h => absurd (h.2 ▸ h2) (lt_irrefl 0)
  · simp only [JSNum.isNaN, Bool.false_eq_true, false_iff]
    exact fun h => absurd (h.2 ▸ h3) (lt_irrefl 0)
  · simp only [JSNum.isNaN, true_iff]
    push_neg at h1 h2 h3
    exact ⟨h1, le_antisymm h2 h3⟩

/-- `Math.ceil (Math.abs x)` is a non-negative, non-NaN value whenever `x` is
not NaN. -/
theorem ceil_abs_nonneg_of_not_nan (x : JSNum) (h : x.isNaN = false) :
    (jsCeil (jsAbs x)).nonneg = true ∧ (jsCeil (jsAbs x)).isNaN = false := by
  cases x with
  | Finite q =>
      refine ⟨?_, rfl⟩
      simp only [jsAbs, jsCeil, JSNum.nonneg, decide_eq_true_eq]
      exact_mod_cast Int.ceil_nonneg (abs_nonneg q)
  | PosInf => exact ⟨rfl, rfl⟩
  | NegInf => exact ⟨rfl, rfl⟩
  | NaN => simp [JSNum.isNaN] at h

/-- C7 counterexample: the claim quantifies over every input record, but with
a negative cost field allowed, `productCost = sellingPrice = 1`,
`referralFee = 1` (a nonzero other cost field) and `fbaFee = -1` give
`netProfit = 0`, so the guard yields the finite value 0 and `breakEvenUnits`
is finite. -/
theorem breakEven_price_eq_cost_counterexample :
    (⟨1, 1, 1, -1, 0, 0, 0⟩ : CalculationInputs).productCost =
      (⟨1, 1, 1, -1, 0, 0, 0⟩ : CalculationInputs).sellingPrice ∧
    (⟨1, 1, 1, -1, 0, 0, 0⟩ : CalculationInputs).referralFee ≠ 0 ∧
    (calculateResults ⟨1, 1, 1, -1, 0, 0, 0⟩).breakEvenUnits.isFinite = true := by
  norm_num [calculateResults, JSNum.isFinite]

/-- C7 (amended): for every input record whose five cost fields other than
`productCost` are non-negative, if `productCost = sellingPrice` and at least
one of those five fields is nonzero then `breakEvenUnits` is non-finite (the
`netProfit !== 0` guard does not prevent the division by zero). -/
theorem breakEven_nonfinite_of_price_eq_cost (i : CalculationInputs)
    (hpc : i.productCost = i.sellingPrice)
    (h3 : 0 ≤ i.referralFee) (h4 : 0 ≤ i.fbaFee) (h5 : 0 ≤ i.shippingCost)
    (h6 : 0 ≤ i.ppcBudget) (h7 : 0 ≤ i.otherFees)
    (hne : i.referralFee ≠ 0 ∨ i.fbaFee ≠ 0 ∨ i.shippingCost ≠ 0 ∨
      i.ppcBudget ≠ 0 ∨ i.otherFees ≠ 0) :
    (calculateResults i).breakEvenUnits.isFinite = false := by
  have hsum : 0 < i.referralFee + i.fbaFee + i.shippingCost + i.ppcBudget + i.otherFees := by
    rcases hne with h | h | h | h | h
    · have := h3.lt_of_ne (Ne.symm h); linarith
    · have := h4.lt_of_ne (Ne.symm h); linarith
    · have := h5.lt_of_ne (Ne.symm h); linarith
    · have := h6.lt_of_ne (Ne.symm h); linarith
    · have := h7.lt_of_ne (Ne.symm h); linarith
  have hnp : i.sellingPrice - (i.productCost + i.referralFee + i.fbaFee +
      i.shippingCost + i.ppcBudget + i.otherFees) ≠ 0 := by
    rw [hpc]
    intro hcon
    linarith
  have hden : i.sellingPrice - i.productCost = 0 := by rw [hpc]; ring
  simp only [calculateResults]
  rw [if_pos hnp, hden]
  exact jsDiv_zero_not_finite _

/-- Witness for the amended C7 at `productCost = sellingPrice = 10` with
`fbaFee = 2`. -/
theorem breakEven_nonfinite_of_price_eq_cost_witness :
    (calculateResults ⟨10, 10, 0, 2, 0, 0, 0⟩).breakEvenUnits.isFinite = false :=
  breakEven_nonfinite_of_price_eq_cost ⟨10, 10, 0, 2, 0, 0, 0⟩ rfl
    (by norm_num) (by norm_num) (by norm_num) (by norm_num) (by norm_num)
    (Or.inr (Or.inl (by norm_num)))

/-- C10 counterexample: the claim quantifies over every input record, but
with a negative cost field allowed, `productCost = sellingPrice = 5` and
`referralFee = -5` give `totalCosts = 0` with `netProfit = 5 ≠ 0`, so the
guarded division is `0 / 0` and `breakEvenUnits` is NaN (and fails the
JavaScript `>= 0` test). -/
theorem breakEven_nan_counterexample :
    (calculateResults ⟨5, 5, -5, 0, 0, 0, 0⟩).breakEvenUnits = JSNum.NaN ∧
    (calculateResults ⟨5, 5, -5, 0, 0, 0, 0⟩).breakEvenUnits.nonneg = false := by
  norm_num [calculateResults, jsDiv, jsAbs, jsCeil, JSNum.nonneg]

/-- C10 (amended): for every input record with all seven fields non-negative,
`breakEvenUnits` is non-negative and is never NaN: when the denominator is
zero with a nonzero `totalCosts` the value is Infinity, and `0 / 0` is
unreachable because `totalCosts = 0` with `sellingPrice = productCost` forces
`netProfit = 0`, which the `netProfit !== 0` guard maps to 0. -/
theorem breakEvenUnits_nonneg_not_nan (i : CalculationInputs)
    (h1 : 0 ≤ i.productCost) (h2 : 0 ≤ i.sellingPrice)
    (h3 : 0 ≤ i.referralFee) (h4 : 0 ≤ i.fbaFee) (h5 : 0 ≤ i.shippingCost)
    (h6 : 0 ≤ i.ppcBudget) (h7 : 0 ≤ i.otherFees) :
    (calculateResults i).breakEvenUnits.nonneg = true ∧
    (calculateResults i).breakEvenUnits.isNaN = false := by
  simp only [calculateResults]
  split_ifs with hnp
  · apply ceil_abs_nonneg_of_not_nan
    rw [Bool.eq_false_iff]
    intro hnan
    rcases (jsDiv_isNaN_iff _ _).mp hnan with ⟨hb, ha⟩
    exact hnp (by linarith)
  · exact ⟨rfl, rfl⟩

/-- Witness for the amended C10 at the spec example inputs. -/
theorem breakEvenUnits_nonneg_not_nan_witness :
    (calculateResults exampleInputs).breakEvenUnits.nonneg = true ∧
    (calculateResults exampleInputs).breakEvenUnits.isNaN = false :=
  breakEvenUnits_nonneg_not_nan exampleInputs (by norm_num [exampleInputs])
    (by norm_num [exampleInputs]) (by norm_num [exampleInputs])
    (by norm_num [exampleInputs]) (by norm_num [exampleInputs])
    (by norm_num [exampleInputs]) (by norm_num [exampleInputs])

/-- C8 counterexample: `getContextualAdvice` is not a function of `netProfit`
and `profitMargin` alone — with equal results records, inputs with
`referralFee 0` versus `referralFee 5` at `sellingPrice 10` produce advice
lists of different lengths, because the function also reads
`inputs.referralFee / inputs.sellingPrice` (and, when `netProfit > 0`,
interpolates `breakEvenUnits` into a message). -/
theorem getContextualAdvice_not_determined_by_profit_fields :
    ¬ (∀ (r1 r2 : CalculationResults) (i1 i2 : CalculationInputs),
        r1.netProfit = r2.netProfit → r1.profitMargin = r2.profitMargin →
        getContextualAdvice r1 i1 = getContextualAdvice r2 i2) := by
  intro h
  have hc := h ⟨-1, -10, .Finite 0, 11⟩ ⟨-1, -10, .Finite 0, 11⟩
    ⟨0, 10, 0, 0, 0, 0, 0⟩ ⟨0, 10, 5, 0, 0, 0, 0⟩ rfl rfl
  have hlen := congrArg List.length hc
  norm_num [getContextualAdvice] at hlen

/-- C8 (amended): `getContextualAdvice` is a pure rule table over the fields
it reads — any two argument pairs agreeing on `netProfit`, `profitMargin` and
`breakEvenUnits` of the results and on `referralFee` and `sellingPrice` of
the inputs produce the same list of messages. -/
theorem getContextualAdvice_determined_by_read_fields
    (r1 r2 : CalculationResults) (i1 i2 : CalculationInputs)
    (hnp : r1.netProfit = r2.netProfit) (hpm : r1.profitMargin = r2.profitMargin)
    (hbe : r1.breakEvenUnits = r2.breakEvenUnits)
    (hrf : i1.referralFee = i2.referralFee) (hsp : i1.sellingPrice = i2.sellingPrice) :
    getContextualAdvice r1 i1 = getContextualAdvice r2 i2 := by
  simp only [getContextualAdvice, hnp, hpm, hbe, hrf, hsp]

/-- Witness for the amended C8 at two pairs agreeing on all read fields. -/
theorem getContextualAdvice_determined_by_read_fields_witness :
    getContextualAdvice ⟨5, 25, .Finite 1, 15⟩ exampleInputs =
      getContextualAdvice ⟨5, 25, .Finite 1, 14⟩ ⟨9, 20, 3, 4, 1, 1, 1⟩ :=
  getContextualAdvice_determined_by_read_fields _ _ _ _ rfl rfl rfl rfl rfl

/-- C9: for every input state whose `referralFee` is 0, `handleInputChange`
on the `sellingPrice` field with a value parsing to a non-negative number `v`
produces a state whose `referralFee` is exactly `0.15 * v`. -/
theorem handleInputChange_auto_referral (i : CalculationInputs) (v : ℚ)
    (href : i.referralFee = 0) (hv : 0 ≤ v) :
    (handleInputChange i .sellingPrice v).referralFee = 0.15 * v := by
  simp only [handleInputChange]
  rw [if_neg (not_lt.mpr hv), if_pos ⟨trivial, href⟩]
  show v * 0.15 = 0.15 * v
  ring

/-- Witness for C9: a zero record updated with selling price 10 gets referral
fee `0.15 * 10`. -/
theorem handleInputChange_auto_referral_witness :
    (handleInputChange ⟨0, 0, 0, 0, 0, 0, 0⟩ .sellingPrice 10).referralFee = 0.15 * 10 :=
  handleInputChange_auto_referral ⟨0, 0, 0, 0, 0, 0, 0⟩ 10 rfl (by norm_num)

/-- Looking a key up in a filtered parameter list skips an entry with a
different key, whether or not the filter keeps it. -/
theorem getParam_skip (k k' : String) (v : ℚ) (l : List (String × ℚ))
    (f : String × ℚ → Bool) (h : k' ≠ k) :
    getParam (((k', v) :: l).filter f) k = getParam (l.filter f) k := by
  rw [List.filter_cons]
  split_ifs with hf
  · simp [getParam, h]
  · rfl

/-- Looking a key up in the nonzero-filtered parameter list finds the entry
with that key when its value is nonzero, and falls through otherwise. -/
theorem getParam_hit (k : String) (v : ℚ) (l : List (String × ℚ)) :
    getParam (((k, v) :: l).filter (fun p => decide (p.2 ≠ 0))) k =
      if v = 0 then getParam (l.filter (fun p => decide (p.2 ≠ 0))) k else some v := by
  rw [List.filter_cons]
  by_cases hv : v = 0 <;> simp [getParam, hv]

/-- The encoded query parameters bind each field key to the field's value
exactly when that value is nonzero. -/
theorem getParam_encode (x : CalculationInputs) (k : String) (hk : k ∈ fieldKeys) :
    getParam (encodeStateToUrl x) k =
      if getField x k = 0 then none else some (getField x k) := by
  fin_cases hk
  · simp only [encodeStateToUrl, inputEntries]
    rw [getParam_hit]
    simp [getField, getParam,
      getParam_skip "productCost" "sellingPrice" _ _ _ (by decide),
      getParam_skip "productCost" "referralFee" _ _ _ (by decide),
      getParam_skip "productCost" "fbaFee" _ _ _ (by decide),
      getParam_skip "productCost" "shippingCost" _ _ _ (by decide),
      getParam_skip "productCost" "ppcBudget" _ _ _ (by decide),
      getParam_skip "productCost" "otherFees" _ _ _ (by decide)]
  · simp only [encodeStateToUrl, inputEntries]
    rw [getParam_skip "sellingPrice" "productCost" _ _ _ (by decide), getParam_hit]
    simp [getField, getParam,
      getParam_skip "sellingPrice" "referralFee" _ _ _ (by decide),
      getParam_skip "sellingPrice" "fbaFee" _ _ _ (by decide),
      getParam_skip "sellingPrice" "shippingCost" _ _ _ (by decide),
      getParam_skip "sellingPrice" "ppcBudget" _ _ _ (by decide),
      getParam_skip "sellingPrice" "otherFees" _ _ _ (by decide)]
  · simp only [encodeStateToUrl, inputEntries]
    rw [getParam_skip "referralFee" "productCost" _ _ _ (by decide),
      getParam_skip "referralFee" "sellingPrice" _ _ _ (by decide), getParam_hit]
    simp [getField, getParam,
      getParam_skip "referralFee" "fbaFee" _ _ _ (by decide),
      getParam_skip "referralFee" "shippingCost" _ _ _ (by decide),
      getParam_skip "referralFee" "ppcBudget" _ _ _ (by decide),
      getParam_skip "referralFee" "otherFees" _ _ _ (by decide)]
  · simp only [encodeStateToUrl, inputEntries]
    rw [getParam_skip "fbaFee" "productCost" _ _ _ (by decide),
      getParam_skip "fbaFee" "sellingPrice" _ _ _ (by decide),
      getParam_skip "fbaFee" "referralFee" _ _ _ (by decide), getParam_hit]
    simp [getField, getParam,
      getParam_skip "fbaFee" "shippingCost" _ _ _ (by decide),
      getParam_skip "fbaFee" "ppcBudget" _ _ _ (by decide),
      getParam_skip "fbaFee" "otherFees" _ _ _ (by decide)]
  · simp only [encodeStateToUrl, inputEntries]
    rw [getParam_skip "shippingCost" "productCost" _ _ _ (by decide),
      getParam_skip "shippingCost" "sellingPrice" _ _ _ (by decide),
      getParam_skip "shippingCost" "referralFee" _ _ _ (by decide),
      getParam_skip "shippingCost" "fbaFee" _ _ _ (by decide), getParam_hit]
    simp [getField, getParam,
      getParam_skip "shippingCost" "ppcBudget" _ _ _ (by decide),
      getParam_skip "shippingCost" "otherFees" _ _ _ (by decide)]
  · simp only [encodeStateToUrl, inputEntries]
    rw [getParam_skip "ppcBudget" "productCost" _ _ _ (by decide),
      getParam_skip "ppcBudget" "sellingPrice" _ _ _ (by decide),
      getParam_skip "ppcBudget" "referralFee" _ _ _ (by decide),
      getParam_skip "ppcBudget" "fbaFee" _ _ _ (by decide),
      getParam_skip "ppcBudget" "shippingCost" _ _ _ (by decide), getParam_hit]
    simp [getField, getParam,
      getParam_skip "ppcBudget" "otherFees" _ _ _ (by decide)]
  · simp only [encodeStateToUrl, inputEntries]
    rw [getParam_skip "otherFees" "productCost" _ _ _ (by decide),
      getParam_skip "otherFees" "sellingPrice" _ _ _ (by decide),
      getParam_skip "otherFees" "referralFee" _ _ _ (by decide),
      getParam_skip "otherFees" "fbaFee" _ _ _ (by decide),
      getParam_skip "otherFees" "shippingCost" _ _ _ (by decide),
      getParam_skip "otherFees" "ppcBudget" _ _ _ (by decide), getParam_hit]
    simp [getField, getParam]

/-- `decodeStateFromUrl` stores, for every known key, the looked-up value
passed through `parseFloat(value) || 0`, field by field. -/
theorem decodeStateFromUrl_eq (params : List (String × ℚ)) :
    decodeStateFromUrl params =
      ⟨(getParam params "productCost").map jsOrZero,
       (getParam params "sellingPrice").map jsOrZero,
       (getParam params "referralFee").map jsOrZero,
       (getParam params "fbaFee").map jsOrZero,
       (getParam params "shippingCost").map jsOrZero,
       (getParam params "ppcBudget").map jsOrZero,
       (getParam params "otherFees").map jsOrZero⟩ := by
  unfold decodeStateFromUrl fieldKeys
  simp only [List.foldl_cons, List.foldl_nil]
  cases h1 : getParam params "productCost" <;>
  cases h2 : getParam params "sellingPrice" <;>
  cases h3 : getParam params "referralFee" <;>
  cases h4 : getParam params "fbaFee" <;>
  cases h5 : getParam params "shippingCost" <;>
  cases h6 : getParam params "ppcBudget" <;>
  cases h7 : getParam params "otherFees" <;>
    simp [decodeStep, h1, h2, h3, h4, h5, h6, h7, setPartial, emptyPartial]

/-- C5: round-trip — for every input record and every field key, a nonzero
field survives `encodeStateToUrl` followed by `decodeStateFromUrl` exactly,
and a field equal to 0 is omitted from the query parameters. -/
theorem url_roundtrip (x : CalculationInputs) (k : String) (hk : k ∈ fieldKeys) :
    (getField x k ≠ 0 →
      getPartialField (decodeStateFromUrl (encodeStateToUrl x)) k =
        some (getField x k)) ∧
    (getField x k = 0 → getParam (encodeStateToUrl x) k = none) := by
  have henc := getParam_encode x k hk
  fin_cases hk <;>
    refine ⟨fun h => ?_, fun h => ?_⟩ <;>
    simp_all [decodeStateFromUrl_eq, getPartialField, getField, jsOrZero]

/-- Witness for C5: the nonzero product cost of the example inputs survives
the round trip, and a zero FBA fee is omitted from the encoded parameters. -/
theorem url_roundtrip_witness :
    getPartialField (decodeStateFromUrl (encodeStateToUrl exampleInputs)) "productCost" =
        some (getField exampleInputs "productCost") ∧
    getParam (encodeStateToUrl ⟨5, 20, 3, 0, 1, 1, 1⟩) "fbaFee" = none :=
  ⟨(url_roundtrip exampleInputs "productCost" (by decide)).1
      (by simp [exampleInputs, getField]),
   (url_roundtrip ⟨5, 20, 3, 0, 1, 1, 1⟩ "fbaFee" (by decide)).2
      (by simp [getField])⟩

end FBA
